import Mathlib

/-!
Shallow embedding of the enum-definition merge pipeline of
`scripts/add_enum_to_def.py` and `scripts/update_definitions_with_enums.py`.

Python values flowing through the pipeline (CSV cells, YAML values,
arguments of `check_null`) are modelled by the inductive `PyVal`.
Pandas dataframes become lists of fixed-schema `EnumRow` records:
the CSV schema is validated up front (`validate_csv_columns` in
`add_enum_to_def.py` requires exactly the five columns used below),
so every row carries the five required columns and the dead
missing-column branch of `col_to_list` cannot fire.
Python exceptions become `Except String`; a swallowed exception
(`try`/`except` with logging) becomes a `match` on the `Except` value.
-/

namespace ACDC

/-- A Python value as it occurs in this pipeline: `None`, a float `NaN`,
booleans, ints, finite floats (modelled as rationals — only NaN-ness is
ever inspected), strings, and the four collection kinds that `check_null`
inspects. -/
inductive PyVal where
  | none
  | nan
  | bool (b : Bool)
  | int (n : Int)
  | float (q : ℚ)
  | str (s : String)
  | list (xs : List PyVal)
  | tuple (xs : List PyVal)
  | set (xs : List PyVal)
  | dict (entries : List (PyVal × PyVal))
deriving Repr

mutual

/-- Structural boolean equality on Python values (supporting the
decidable-equality instance below). -/
def PyVal.beq : PyVal → PyVal → Bool
  | .none, .none => true
  | .nan, .nan => true
  | .bool a, .bool b => a == b
  | .int a, .int b => a == b
  | .float a, .float b => a == b
  | .str a, .str b => a == b
  | .list xs, .list ys => beqList xs ys
  | .tuple xs, .tuple ys => beqList xs ys
  | .set xs, .set ys => beqList xs ys
  | .dict xs, .dict ys => beqPairs xs ys
  | _, _ => false

/-- Pointwise `PyVal.beq` on lists. -/
def beqList : List PyVal → List PyVal → Bool
  | [], [] => true
  | x :: xs, y :: ys => PyVal.beq x y && beqList xs ys
  | _, _ => false

/-- Pointwise `PyVal.beq` on key-value pair lists. -/
def beqPairs : List (PyVal × PyVal) → List (PyVal × PyVal) → Bool
  | [], [] => true
  | (k1, v1) :: xs, (k2, v2) :: ys =>
      PyVal.beq k1 k2 && PyVal.beq v1 v2 && beqPairs xs ys
  | _, _ => false

end

mutual

/-- Soundness of `PyVal.beq`. -/
theorem PyVal.beq_eq : ∀ a b : PyVal, PyVal.beq a b = true → a = b
  | .none, .none, _ => rfl
  | .nan, .nan, _ => rfl
  | .bool a, .bool b, h => by
      simp only [PyVal.beq, beq_iff_eq] at h; exact congrArg PyVal.bool h
  | .int a, .int b, h => by
      simp only [PyVal.beq, beq_iff_eq] at h; exact congrArg PyVal.int h
  | .float a, .float b, h => by
      simp only [PyVal.beq, beq_iff_eq] at h; exact congrArg PyVal.float h
  | .str a, .str b, h => by
      simp only [PyVal.beq, beq_iff_eq] at h; exact congrArg PyVal.str h
  | .list xs, .list ys, h => congrArg PyVal.list (beqList_eq xs ys h)
  | .tuple xs, .tuple ys, h => congrArg PyVal.tuple (beqList_eq xs ys h)
  | .set xs, .set ys, h => congrArg PyVal.set (beqList_eq xs ys h)
  | .dict xs, .dict ys, h => congrArg PyVal.dict (beqPairs_eq xs ys h)

/-- Soundness of `beqList`. -/
theorem beqList_eq : ∀ xs ys : List PyVal, beqList xs ys = true → xs = ys
  | [], [], _ => rfl
  | x :: xs, y :: ys, h => by
      have h' := h
      simp only [beqList, Bool.and_eq_true] at h'
      exact congrArg₂ List.cons (PyVal.beq_eq x y h'.1) (beqList_eq xs ys h'.2)

/-- Soundness of `beqPairs`. -/
theorem beqPairs_eq : ∀ xs ys : List (PyVal × PyVal), beqPairs xs ys = true → xs = ys
  | [], [], _ => rfl
  | (k1, v1) :: xs, (k2, v2) :: ys, h => by
      have h' := h
      simp only [beqPairs, Bool.and_eq_true] at h'
      have hk := PyVal.beq_eq k1 k2 h'.1.1
      have hv := PyVal.beq_eq v1 v2 h'.1.2
      have ht := beqPairs_eq xs ys h'.2
      rw [hk, hv, ht]

end

mutual

/-- Reflexivity of `PyVal.beq`. -/
theorem PyVal.beq_refl : ∀ a : PyVal, PyVal.beq a a = true
  | .none => rfl
  | .nan => rfl
  | .bool a => by simp [PyVal.beq]
  | .int a => by simp [PyVal.beq]
  | .float a => by simp [PyVal.beq]
  | .str a => by simp [PyVal.beq]
  | .list xs => beqList_refl xs
  | .tuple xs => beqList_refl xs
  | .set xs => beqList_refl xs
  | .dict xs => beqPairs_refl xs

/-- Reflexivity of `beqList`. -/
theorem beqList_refl : ∀ xs : List PyVal, beqList xs xs = true
  | [] => rfl
  | x :: xs => by
      simp only [beqList, Bool.and_eq_true]
      exact ⟨PyVal.beq_refl x, beqList_refl xs⟩

/-- Reflexivity of `beqPairs`. -/
theorem beqPairs_refl : ∀ xs : List (PyVal × PyVal), beqPairs xs xs = true
  | [] => rfl
  | (k, v) :: xs => by
      simp only [beqPairs, Bool.and_eq_true]
      exact ⟨⟨PyVal.beq_refl k, PyVal.beq_refl v⟩, beqPairs_refl xs⟩

end

instance : DecidableEq PyVal := fun a b =>
  if h : PyVal.beq a b = true then isTrue (PyVal.beq_eq a b h)
  else isFalse (fun he => h (he ▸ PyVal.beq_refl a))

instance {ε α : Type} [DecidableEq ε] [DecidableEq α] : DecidableEq (Except ε α) := fun x y =>
  match x, y with
  | .ok a, .ok b =>
      if h : a = b then isTrue (congrArg Except.ok h)
      else isFalse (fun he => h (Except.ok.inj he))
  | .ok _, .error _ => isFalse (fun he => Except.noConfusion he)
  | .error _, .ok _ => isFalse (fun he => Except.noConfusion he)
  | .error e, .error f =>
      if h : e = f then isTrue (congrArg Except.error h)
      else isFalse (fun he => h (Except.error.inj he))

/-- Pandas/Python equality on cell values as used by `df[col] == x`:
equality of values, except that `NaN` compares unequal to everything,
itself included. -/
def pyEq (a b : PyVal) : Bool :=
  !(decide (a = PyVal.nan)) && !(decide (b = PyVal.nan)) && decide (a = b)

/-- Python `str.isspace` characters in the ASCII range, the whitespace
stripped by `str.strip()` (the pipeline's cells are ASCII). -/
def isPySpace (c : Char) : Bool :=
  c == ' ' || c == '\t' || c == '\n' || c == '\r' || c == '\x0b' || c == '\x0c'

/-- Python `value.strip()`: drop leading and trailing whitespace. -/
def pyStrip (s : String) : String :=
  ⟨((s.data.dropWhile isPySpace).reverse.dropWhile isPySpace).reverse⟩

/-- Python `value.lower()` (ASCII case mapping). -/
def pyLower (s : String) : String :=
  ⟨s.data.map Char.toLower⟩

/-- The fixed vocabulary of null-like strings in `check_null`. -/
def null_strs : List String :=
  ["", "null", "none", "nan", "n/a", "na", "not available",
   "not applicable", "missing"]

/-- `check_null` from `add_enum_to_def.py` (the copy in
`update_definitions_with_enums.py` is textually identical modulo logging):
`None`, float NaN, null-vocabulary strings after strip+lower, and empty
collections are null; everything else is not. -/
def check_null : PyVal → Bool
  | .none => true
  | .nan => true
  | .str s => null_strs.contains (pyLower (pyStrip s))
  | .list xs => xs.isEmpty
  | .tuple xs => xs.isEmpty
  | .set xs => xs.isEmpty
  | .dict entries => entries.isEmpty
  | .bool _ => false
  | .int _ => false
  | .float _ => false

/-- One row of the enum CSV, with the five columns required by
`validate_csv_columns` in `add_enum_to_def.py`. -/
structure EnumRow where
  type_name : PyVal
  enum : PyVal
  enum_definition : PyVal
  source : PyVal
  term_id : PyVal
deriving DecidableEq, Repr

/-- The enum dataframe: an ordered collection of rows. -/
abbrev Table := List EnumRow

/-- A column name of the enum CSV (the fixed schema). -/
inductive Column where
  | type_name
  | enum
  | enum_definition
  | source
  | term_id
deriving DecidableEq, Repr

/-- Dynamic column access `row[col]` on the fixed schema. -/
def EnumRow.col (r : EnumRow) : Column → PyVal
  | .type_name => r.type_name
  | .enum => r.enum
  | .enum_definition => r.enum_definition
  | .source => r.source
  | .term_id => r.term_id

/-- `col_to_list` from `add_enum_to_def.py`: a dataframe column as a list.
The missing-column `KeyError` branch is unreachable under the validated
fixed schema, so the function is total here. -/
def col_to_list (df : Table) (c : Column) : List PyVal :=
  df.map (fun r => r.col c)

/-- `pull_enum` from `add_enum_to_def.py`: filter the dataframe to rows
of one enum type; `ValueError` when the result is empty. -/
def pull_enum (df : Table) (enum_name : PyVal) : Except String Table :=
  let result_df := df.filter (fun r => pyEq r.type_name enum_name)
  if result_df.isEmpty then
    Except.error "Enum not found in dataframe"
  else
    Except.ok result_df

/-- `get_enum_list` from `add_enum_to_def.py`: the `enum` column of the
rows of one enum type. -/
def get_enum_list (df : Table) (enum_name : PyVal) : Except String (List PyVal) :=
  match pull_enum df enum_name with
  | .error e => Except.error e
  | .ok result_df => Except.ok (col_to_list result_df Column.enum)

/-- `get_enum_definition` from `add_enum_to_def.py`: the `enum_definition`
field of the first row of the type whose `enum` cell matches the term;
`IndexError` when no row matches. -/
def get_enum_definition (df : Table) (enum_name enum_term : PyVal) : Except String PyVal :=
  match pull_enum df enum_name with
  | .error e => Except.error e
  | .ok result_df =>
      match result_df.filter (fun r => pyEq r.enum enum_term) with
      | [] => Except.error "Enum term not found in enum"
      | r :: _ => Except.ok r.enum_definition

/-- `get_enum_source` from `add_enum_to_def.py`. -/
def get_enum_source (df : Table) (enum_name enum_term : PyVal) : Except String PyVal :=
  match pull_enum df enum_name with
  | .error e => Except.error e
  | .ok result_df =>
      match result_df.filter (fun r => pyEq r.enum enum_term) with
      | [] => Except.error "Enum term not found in enum"
      | r :: _ => Except.ok r.source

/-- `get_enum_term_id` from `add_enum_to_def.py`. -/
def get_enum_term_id (df : Table) (enum_name enum_term : PyVal) : Except String PyVal :=
  match pull_enum df enum_name with
  | .error e => Except.error e
  | .ok result_df =>
      match result_df.filter (fun r => pyEq r.enum enum_term) with
      | [] => Except.error "Enum term not found in enum"
      | r :: _ => Except.ok r.term_id

/-- One `enumDef` record: the dict built per term by `construct_enum_def`.
`Option.none` in a field means the key is absent from the dict. -/
structure TermRecord where
  enumeration : PyVal
  definition : Option PyVal
  source : Option PyVal
  term_id : Option PyVal
deriving DecidableEq, Repr

/-- The loop body of `construct_enum_def` in `add_enum_to_def.py`
(local dict `enumdef`): each optional field is fetched inside a
`try`/`except`; a raised lookup error is swallowed (logged) and the
key stays absent, and a null-classified value is likewise omitted. -/
def build_enumdef (df : Table) (enum_name enum_term : PyVal) : TermRecord where
  enumeration := enum_term
  definition :=
    match get_enum_definition df enum_name enum_term with
    | .ok v => if check_null v then Option.none else Option.some v
    | .error _ => Option.none
  source :=
    match get_enum_source df enum_name enum_term with
    | .ok v => if check_null v then Option.none else Option.some v
    | .error _ => Option.none
  term_id :=
    match get_enum_term_id df enum_name enum_term with
    | .ok v => if check_null v then Option.none else Option.some v
    | .error _ => Option.none

/-- `construct_enum_def` from `add_enum_to_def.py`: one `TermRecord` per
term of the type's term list, in term-list order. -/
def construct_enum_def (df : Table) (enum_name : PyVal) : Except String (List TermRecord) :=
  match get_enum_list df enum_name with
  | .error e => Except.error e
  | .ok enum_term_list => Except.ok (enum_term_list.map (build_enumdef df enum_name))

/-- The complete YAML entry built per enum type (`output_dict` in
`construct_enum_term_yaml_entry`). -/
structure EnumTypeEntry where
  description : PyVal
  enum : List PyVal
  enumDef : List TermRecord
deriving DecidableEq, Repr

/-- `construct_enum_term_yaml_entry` from `add_enum_to_def.py`. -/
def construct_enum_term_yaml_entry (df : Table) (enum_name : PyVal) (description : PyVal) :
    Except String EnumTypeEntry :=
  match get_enum_list df enum_name with
  | .error e => Except.error e
  | .ok enum_term_list =>
      match construct_enum_def df enum_name with
      | .error e => Except.error e
      | .ok enum_def_list => Except.ok ⟨description, enum_term_list, enum_def_list⟩

/-- A value of the definitions document: either a pre-existing YAML value
or a synthesized enum entry. -/
inductive DefValue where
  | raw (v : PyVal)
  | entry (e : EnumTypeEntry)
deriving DecidableEq, Repr

/-- The definitions document: an insertion-ordered dict. -/
abbrev Doc := List (PyVal × DefValue)

/-- Python dict lookup `d[k]` (as an `Option`). -/
def dictGet (d : Doc) (k : PyVal) : Option DefValue :=
  (d.find? (fun p => pyEq p.1 k)).map Prod.snd

/-- Python dict assignment `d[k] = v`: overwrite in place when the key is
present, append otherwise. -/
def dictSet (d : Doc) (k : PyVal) (v : DefValue) : Doc :=
  if d.any (fun p => pyEq p.1 k) then
    d.map (fun p => if pyEq p.1 k then (p.1, v) else p)
  else
    d ++ [(k, v)]

/-- First-seen-order deduplication (helper for `uniqueList`). -/
def uniqueAux : List PyVal → List PyVal → List PyVal
  | [], _ => []
  | x :: xs, seen =>
      if x ∈ seen then uniqueAux xs seen else x :: uniqueAux xs (x :: seen)

/-- `df['type_name'].unique().tolist()` composed with the `set(...)`
iteration of the merge loop: the distinct values, each once. The loop
iterates a Python `set`, whose order is unspecified; first-seen order is
the representative order chosen here. -/
def uniqueList (l : List PyVal) : List PyVal :=
  uniqueAux l []

/-- The distinct enum types discovered in the table
(`enum_to_pull_list` in `process_enums`). -/
def enum_types (df : Table) : List PyVal :=
  uniqueList (df.map (fun r => r.type_name))

/-- The per-type merge loop of `process_enums`: build each type's entry
and assign it into the document; a raised build error is re-raised,
aborting the loop. -/
def mergeFold (df : Table) : List PyVal → Doc → Except String Doc
  | [], doc => Except.ok doc
  | n :: ns, doc =>
      match construct_enum_term_yaml_entry df n PyVal.none with
      | .error e => Except.error e
      | .ok entry => mergeFold df ns (dictSet doc n (DefValue.entry entry))

/-- `process_enums` from `add_enum_to_def.py`, after loading: run the
merge loop and, on success, call `write_yaml` once with the merged
document. The second component records the `write_yaml` calls made
(the persisted documents); on error nothing is written. -/
def process_enums (df : Table) (doc : Doc) : Except String Doc × List Doc :=
  match mergeFold df (enum_types df) doc with
  | .ok d => (Except.ok d, [d])
  | .error e => (Except.error e, [])

namespace UpdDefs

/-- `pull_enum` from `update_definitions_with_enums.py`: same filter, but
an empty result is returned silently instead of raising. -/
def pull_enum (df : Table) (enum_name : PyVal) : Table :=
  df.filter (fun r => pyEq r.type_name enum_name)

/-- `get_enum_list` from `update_definitions_with_enums.py`. -/
def get_enum_list (df : Table) (enum_name : PyVal) : List PyVal :=
  col_to_list (pull_enum df enum_name) Column.enum

/-- `get_enum_definition` from `update_definitions_with_enums.py`:
`.iloc[0]` raises `IndexError` on an empty filter result. -/
def get_enum_definition (df : Table) (enum_name enum_term : PyVal) : Except String PyVal :=
  match (pull_enum df enum_name).filter (fun r => pyEq r.enum enum_term) with
  | [] => Except.error "single positional indexer is out-of-bounds"
  | r :: _ => Except.ok r.enum_definition

/-- `get_enum_source` from `update_definitions_with_enums.py`. -/
def get_enum_source (df : Table) (enum_name enum_term : PyVal) : Except String PyVal :=
  match (pull_enum df enum_name).filter (fun r => pyEq r.enum enum_term) with
  | [] => Except.error "single positional indexer is out-of-bounds"
  | r :: _ => Except.ok r.source

/-- `get_enum_term_id` from `update_definitions_with_enums.py`. -/
def get_enum_term_id (df : Table) (enum_name enum_term : PyVal) : Except String PyVal :=
  match (pull_enum df enum_name).filter (fun r => pyEq r.enum enum_term) with
  | [] => Except.error "single positional indexer is out-of-bounds"
  | r :: _ => Except.ok r.term_id

/-- The loop body of `construct_enum_def` in
`update_definitions_with_enums.py`: no `try`/`except` — a lookup error
propagates to the caller. -/
def build_enumdef (df : Table) (enum_name enum_term : PyVal) : Except String TermRecord :=
  match get_enum_definition df enum_name enum_term with
  | .error e => Except.error e
  | .ok d =>
      match get_enum_source df enum_name enum_term with
      | .error e => Except.error e
      | .ok s =>
          match get_enum_term_id df enum_name enum_term with
          | .error e => Except.error e
          | .ok i =>
              Except.ok
                { enumeration := enum_term
                  definition := if check_null d then Option.none else Option.some d
                  source := if check_null s then Option.none else Option.some s
                  term_id := if check_null i then Option.none else Option.some i }

/-- The term loop of `construct_enum_def` in
`update_definitions_with_enums.py`, stopping at the first raised error. -/
def construct_enum_def_loop (df : Table) (enum_name : PyVal) :
    List PyVal → Except String (List TermRecord)
  | [] => Except.ok []
  | t :: ts =>
      match build_enumdef df enum_name t with
      | .error e => Except.error e
      | .ok r =>
          match construct_enum_def_loop df enum_name ts with
          | .error e => Except.error e
          | .ok rest => Except.ok (r :: rest)

/-- `construct_enum_def` from `update_definitions_with_enums.py`. -/
def construct_enum_def (df : Table) (enum_name : PyVal) : Except String (List TermRecord) :=
  construct_enum_def_loop df enum_name (get_enum_list df enum_name)

/-- `construct_enum_term_yaml_entry` from
`update_definitions_with_enums.py`. -/
def construct_enum_term_yaml_entry (df : Table) (enum_name : PyVal) (description : PyVal) :
    Except String EnumTypeEntry :=
  match construct_enum_def df enum_name with
  | .error e => Except.error e
  | .ok enum_def_list => Except.ok ⟨description, get_enum_list df enum_name, enum_def_list⟩

end UpdDefs

/-! ### Basic facts about `pyEq`, dict operations and deduplication -/

theorem pyEq_true_iff {a b : PyVal} : pyEq a b = true ↔ a = b ∧ b ≠ PyVal.nan := by
  simp only [pyEq, Bool.and_eq_true, Bool.not_eq_true', decide_eq_false_iff_not,
    decide_eq_true_eq]
  constructor
  · rintro ⟨⟨-, hb⟩, hab⟩
    exact ⟨hab, hb⟩
  · rintro ⟨hab, hb⟩
    subst hab
    exact ⟨⟨hb, hb⟩, rfl⟩

theorem pyEq_self {a : PyVal} (h : a ≠ PyVal.nan) : pyEq a a = true :=
  pyEq_true_iff.mpr ⟨rfl, h⟩

theorem pyEq_false_of_ne {a b : PyVal} (h : a ≠ b) : pyEq a b = false := by
  cases hab : pyEq a b
  · rfl
  · exact absurd (pyEq_true_iff.mp hab).1 h

theorem find?_eq_head?_filter {α : Type} (p : α → Bool) :
    ∀ l : List α, l.find? p = (l.filter p).head?
  | [] => rfl
  | a :: l => by
      cases h : p a
      · rw [List.filter_cons, if_neg (by simp [h])]
        rw [show (a :: l).find? p = l.find? p by rw [List.find?_cons, h]]
        exact find?_eq_head?_filter p l
      · rw [List.filter_cons, if_pos h, List.find?_cons, h]
        rfl

theorem dictGet_dictSet_self (d : Doc) (k : PyVal) (v : DefValue) (hk : k ≠ PyVal.nan) :
    dictGet (dictSet d k v) k = some v := by
  unfold dictGet dictSet
  by_cases hc : d.any (fun p => pyEq p.1 k) = true
  · rw [if_pos hc, List.find?_map]
    have hcomp : ((fun p : PyVal × DefValue => pyEq p.1 k) ∘
        (fun p => if pyEq p.1 k then (p.1, v) else p)) = fun p => pyEq p.1 k := by
      funext p
      by_cases h : pyEq p.1 k = true <;> simp [Function.comp, h]
    rw [hcomp]
    rcases hfind : d.find? (fun p => pyEq p.1 k) with - | q
    · obtain ⟨p₀, hp₀mem, hp₀⟩ := List.any_eq_true.mp hc
      exact absurd hp₀ (List.find?_eq_none.mp hfind p₀ hp₀mem)
    · have hq : pyEq q.1 k = true := by simpa using List.find?_some hfind
      rw [hfind]
      simp [hq]
  · rw [if_neg hc, List.find?_append]
    have hnone : d.find? (fun p => pyEq p.1 k) = none := by
      refine List.find?_eq_none.mpr fun x hx hpx => ?_
      exact hc (List.any_eq_true.mpr ⟨x, hx, hpx⟩)
    simp [hnone, List.find?, pyEq_self hk]

theorem dictGet_dictSet_ne (d : Doc) (k k' : PyVal) (v : DefValue) (hne : k ≠ k') :
    dictGet (dictSet d k v) k' = dictGet d k' := by
  unfold dictGet dictSet
  by_cases hc : d.any (fun p => pyEq p.1 k) = true
  · rw [if_pos hc, List.find?_map]
    have hcomp : ((fun p : PyVal × DefValue => pyEq p.1 k') ∘
        (fun p => if pyEq p.1 k then (p.1, v) else p)) = fun p => pyEq p.1 k' := by
      funext p
      by_cases h : pyEq p.1 k = true <;> simp [Function.comp, h]
    rw [hcomp]
    rcases hfind : d.find? (fun p => pyEq p.1 k') with - | q
    · simp [hfind]
    · have hq : pyEq q.1 k' = true := by simpa using List.find?_some hfind
      have hq1 : q.1 = k' := (pyEq_true_iff.mp hq).1
      have hqk : pyEq q.1 k = false := by
        refine pyEq_false_of_ne ?_
        rw [hq1]
        exact fun h => hne h.symm
      simp [hfind, hqk]
  · rw [if_neg hc, List.find?_append]
    rcases hfind : d.find? (fun p => pyEq p.1 k') with - | q
    · have hkk : pyEq k k' = false := pyEq_false_of_ne hne
      simp [hfind, List.find?, hkk]
    · simp [hfind]

theorem mem_uniqueAux (x : PyVal) :
    ∀ l seen : List PyVal, x ∈ uniqueAux l seen ↔ x ∈ l ∧ x ∉ seen
  | [], seen => by simp [uniqueAux]
  | y :: l, seen => by
      by_cases h : y ∈ seen
      · rw [uniqueAux, if_pos h, mem_uniqueAux x l seen]
        constructor
        · rintro ⟨hx, hs⟩
          exact ⟨List.mem_cons_of_mem y hx, hs⟩
        · rintro ⟨hx, hs⟩
          rcases List.mem_cons.mp hx with hx | hx
          · exact absurd (hx ▸ h) hs
          · exact ⟨hx, hs⟩
      · rw [uniqueAux, if_neg h, List.mem_cons, mem_uniqueAux x l (y :: seen)]
        constructor
        · rintro (hx | ⟨hx, hs⟩)
          · subst hx
            exact ⟨List.mem_cons_self x l, h⟩
          · exact ⟨List.mem_cons_of_mem y hx,
              fun hmem => hs (List.mem_cons_of_mem y hmem)⟩
        · rintro ⟨hx, hs⟩
          by_cases hxy : x = y
          · exact Or.inl hxy
          · rcases List.mem_cons.mp hx with hx | hx
            · exact absurd hx hxy
            · refine Or.inr ⟨hx, fun hmem => ?_⟩
              rcases List.mem_cons.mp hmem with hm | hm
              · exact hxy hm
              · exact hs hm

theorem nodup_uniqueAux :
    ∀ l seen : List PyVal, (uniqueAux l seen).Nodup
  | [], _ => List.nodup_nil
  | y :: l, seen => by
      by_cases h : y ∈ seen
      · rw [uniqueAux, if_pos h]
        exact nodup_uniqueAux l seen
      · rw [uniqueAux, if_neg h]
        refine List.nodup_cons.mpr ⟨fun hy => ?_, nodup_uniqueAux l (y :: seen)⟩
        exact ((mem_uniqueAux y l (y :: seen)).mp hy).2 (List.mem_cons_self y seen)

theorem mem_uniqueList {x : PyVal} {l : List PyVal} : x ∈ uniqueList l ↔ x ∈ l := by
  rw [uniqueList, mem_uniqueAux]
  simp

theorem nodup_uniqueList (l : List PyVal) : (uniqueList l).Nodup :=
  nodup_uniqueAux l []

/-! ### Characterizations of the extraction layer -/

theorem pull_enum_eq_ok {df : Table} {n : PyVal}
    (h : df.filter (fun r => pyEq r.type_name n) ≠ []) :
    pull_enum df n = Except.ok (df.filter (fun r => pyEq r.type_name n)) := by
  unfold pull_enum
  rw [if_neg (by simpa [List.isEmpty_iff] using h)]

theorem pull_enum_eq_error {df : Table} {n : PyVal}
    (h : df.filter (fun r => pyEq r.type_name n) = []) :
    pull_enum df n = Except.error "Enum not found in dataframe" := by
  unfold pull_enum
  rw [if_pos (by simpa [List.isEmpty_iff] using h)]

theorem get_enum_list_eq_ok {df : Table} {n : PyVal}
    (h : df.filter (fun r => pyEq r.type_name n) ≠ []) :
    get_enum_list df n =
      Except.ok ((df.filter (fun r => pyEq r.type_name n)).map (fun r => r.enum)) := by
  unfold get_enum_list
  rw [pull_enum_eq_ok h]
  rfl

theorem get_enum_list_eq_error {df : Table} {n : PyVal}
    (h : df.filter (fun r => pyEq r.type_name n) = []) :
    get_enum_list df n = Except.error "Enum not found in dataframe" := by
  unfold get_enum_list
  rw [pull_enum_eq_error h]

theorem filter_type_enum (df : Table) (n t : PyVal) :
    (df.filter (fun r => pyEq r.type_name n)).filter (fun r => pyEq r.enum t) =
      df.filter (fun r => pyEq r.type_name n && pyEq r.enum t) := by
  rw [List.filter_filter]
  exact List.filter_congr fun r _ => Bool.and_comm _ _

theorem getters_first_match {df : Table} {n t : PyVal} {r : EnumRow}
    (h : df.find? (fun r => pyEq r.type_name n && pyEq r.enum t) = some r) :
    get_enum_definition df n t = Except.ok r.enum_definition ∧
    get_enum_source df n t = Except.ok r.source ∧
    get_enum_term_id df n t = Except.ok r.term_id := by
  have hmem : r ∈ df := List.mem_of_find?_eq_some h
  have hpq : (pyEq r.type_name n && pyEq r.enum t) = true := by
    simpa using List.find?_some h
  have hp : pyEq r.type_name n = true := by
    have h' := hpq
    simp only [Bool.and_eq_true] at h'
    exact h'.1
  have hne : df.filter (fun r => pyEq r.type_name n) ≠ [] := by
    intro hnil
    have : r ∈ df.filter (fun r => pyEq r.type_name n) :=
      List.mem_filter.mpr ⟨hmem, hp⟩
    rw [hnil] at this
    exact absurd this (List.not_mem_nil r)
  have hhead :
      (df.filter (fun r => pyEq r.type_name n && pyEq r.enum t)).head? = some r := by
    rw [← find?_eq_head?_filter]
    exact h
  have hcons :
      ∃ rest, (df.filter (fun r => pyEq r.type_name n)).filter (fun r => pyEq r.enum t) =
        r :: rest := by
    rw [filter_type_enum]
    rcases hl : df.filter (fun r => pyEq r.type_name n && pyEq r.enum t) with - | ⟨r', rest⟩
    · rw [hl] at hhead
      cases hhead
    · have hr' : r' = r := by
        rw [hl] at hhead
        simpa using hhead
      subst hr'
      exact ⟨rest, hl⟩
  obtain ⟨rest, hrest⟩ := hcons
  refine ⟨?_, ?_, ?_⟩
  · simp only [get_enum_definition, pull_enum_eq_ok hne, hrest]
  · simp only [get_enum_source, pull_enum_eq_ok hne, hrest]
  · simp only [get_enum_term_id, pull_enum_eq_ok hne, hrest]

theorem getters_no_match {df : Table} {n t : PyVal}
    (h : df.find? (fun r => pyEq r.type_name n && pyEq r.enum t) = none) :
    (∃ e, get_enum_definition df n t = Except.error e) ∧
    (∃ e, get_enum_source df n t = Except.error e) ∧
    (∃ e, get_enum_term_id df n t = Except.error e) := by
  by_cases hf : df.filter (fun r => pyEq r.type_name n) = []
  · have h1 : get_enum_definition df n t = Except.error "Enum not found in dataframe" := by
      simp only [get_enum_definition, pull_enum_eq_error hf]
    have h2 : get_enum_source df n t = Except.error "Enum not found in dataframe" := by
      simp only [get_enum_source, pull_enum_eq_error hf]
    have h3 : get_enum_term_id df n t = Except.error "Enum not found in dataframe" := by
      simp only [get_enum_term_id, pull_enum_eq_error hf]
    exact ⟨⟨_, h1⟩, ⟨_, h2⟩, ⟨_, h3⟩⟩
  · have hnil :
        (df.filter (fun r => pyEq r.type_name n)).filter (fun r => pyEq r.enum t) = [] := by
      rw [filter_type_enum, ← List.head?_eq_none_iff, ← find?_eq_head?_filter]
      exact h
    have h1 : get_enum_definition df n t = Except.error "Enum term not found in enum" := by
      simp only [get_enum_definition, pull_enum_eq_ok hf, hnil]
    have h2 : get_enum_source df n t = Except.error "Enum term not found in enum" := by
      simp only [get_enum_source, pull_enum_eq_ok hf, hnil]
    have h3 : get_enum_term_id df n t = Except.error "Enum term not found in enum" := by
      simp only [get_enum_term_id, pull_enum_eq_ok hf, hnil]
    exact ⟨⟨_, h1⟩, ⟨_, h2⟩, ⟨_, h3⟩⟩

theorem construct_enum_def_eq_ok {df : Table} {n : PyVal}
    (h : df.filter (fun r => pyEq r.type_name n) ≠ []) :
    construct_enum_def df n =
      Except.ok (((df.filter (fun r => pyEq r.type_name n)).map (fun r => r.enum)).map
        (build_enumdef df n)) := by
  simp only [construct_enum_def, get_enum_list_eq_ok h]

theorem cety_eq_ok {df : Table} {n desc : PyVal}
    (h : df.filter (fun r => pyEq r.type_name n) ≠ []) :
    construct_enum_term_yaml_entry df n desc =
      Except.ok
        ⟨desc, (df.filter (fun r => pyEq r.type_name n)).map (fun r => r.enum),
          ((df.filter (fun r => pyEq r.type_name n)).map (fun r => r.enum)).map
            (build_enumdef df n)⟩ := by
  simp only [construct_enum_term_yaml_entry, get_enum_list_eq_ok h,
    construct_enum_def_eq_ok h]

theorem cety_eq_error {df : Table} {n desc : PyVal}
    (h : df.filter (fun r => pyEq r.type_name n) = []) :
    construct_enum_term_yaml_entry df n desc =
      Except.error "Enum not found in dataframe" := by
  simp only [construct_enum_term_yaml_entry, get_enum_list_eq_error h]

theorem cety_ok_filter_ne {df : Table} {n desc : PyVal} {e : EnumTypeEntry}
    (h : construct_enum_term_yaml_entry df n desc = Except.ok e) :
    df.filter (fun r => pyEq r.type_name n) ≠ [] := by
  intro hf
  rw [cety_eq_error hf] at h
  cases h

theorem cety_ok_ne_nan {df : Table} {n desc : PyVal} {e : EnumTypeEntry}
    (h : construct_enum_term_yaml_entry df n desc = Except.ok e) :
    n ≠ PyVal.nan := by
  have hf := cety_ok_filter_ne h
  rcases hl : df.filter (fun r => pyEq r.type_name n) with - | ⟨r, rest⟩
  · exact absurd hl hf
  · have hr : r ∈ df.filter (fun r => pyEq r.type_name n) := by
      rw [hl]
      exact List.mem_cons_self r rest
    exact (pyEq_true_iff.mp (List.mem_filter.mp hr).2).2

theorem filter_type_ne_nil {df : Table} {n : PyVal} {r : EnumRow}
    (hr : r ∈ df) (hpr : pyEq r.type_name n = true) :
    df.filter (fun r => pyEq r.type_name n) ≠ [] := by
  intro hnil
  have hmem : r ∈ df.filter (fun r => pyEq r.type_name n) :=
    List.mem_filter.mpr ⟨hr, hpr⟩
  rw [hnil] at hmem
  exact absurd hmem (List.not_mem_nil r)

/-! ### The merge loop -/

theorem mergeFold_cons_error {df : Table} {n : PyVal} {ns : List PyVal} {doc : Doc}
    {e : String} (hc : construct_enum_term_yaml_entry df n PyVal.none = Except.error e) :
    mergeFold df (n :: ns) doc = Except.error e := by
  simp only [mergeFold, hc]

theorem mergeFold_cons_ok {df : Table} {n : PyVal} {ns : List PyVal} {doc : Doc}
    {ent : EnumTypeEntry}
    (hc : construct_enum_term_yaml_entry df n PyVal.none = Except.ok ent) :
    mergeFold df (n :: ns) doc = mergeFold df ns (dictSet doc n (DefValue.entry ent)) := by
  simp only [mergeFold, hc]

theorem mergeFold_ok_all {df : Table} :
    ∀ {ns : List PyVal} {doc doc' : Doc}, mergeFold df ns doc = Except.ok doc' →
      ∀ n ∈ ns, ∃ ent, construct_enum_term_yaml_entry df n PyVal.none = Except.ok ent := by
  intro ns
  induction ns with
  | nil =>
      intro doc doc' _ n hn
      exact absurd hn (List.not_mem_nil n)
  | cons m ms ih =>
      intro doc doc' h n hn
      rcases hc : construct_enum_term_yaml_entry df m PyVal.none with e | ent
      · rw [mergeFold_cons_error hc] at h
        cases h
      · rcases List.mem_cons.mp hn with rfl | hm
        · exact ⟨ent, hc⟩
        · exact ih (by rwa [mergeFold_cons_ok hc] at h) n hm

theorem mergeFold_error_mem {df : Table} :
    ∀ {ns : List PyVal} {doc : Doc} {e : String}, mergeFold df ns doc = Except.error e →
      ∃ n ∈ ns, construct_enum_term_yaml_entry df n PyVal.none = Except.error e := by
  intro ns
  induction ns with
  | nil =>
      intro doc e h
      exact Except.noConfusion h
  | cons m ms ih =>
      intro doc e h
      rcases hc : construct_enum_term_yaml_entry df m PyVal.none with e' | ent
      · rw [mergeFold_cons_error hc] at h
        cases h
        exact ⟨m, List.mem_cons_self m ms, hc⟩
      · rw [mergeFold_cons_ok hc] at h
        obtain ⟨n, hn, hne⟩ := ih h
        exact ⟨n, List.mem_cons_of_mem m hn, hne⟩

theorem mergeFold_all_ok {df : Table} :
    ∀ {ns : List PyVal} (doc : Doc),
      (∀ n ∈ ns, ∃ ent, construct_enum_term_yaml_entry df n PyVal.none = Except.ok ent) →
      ∃ doc', mergeFold df ns doc = Except.ok doc' := by
  intro ns
  induction ns with
  | nil =>
      intro doc _
      exact ⟨doc, rfl⟩
  | cons m ms ih =>
      intro doc hall
      obtain ⟨ent, hent⟩ := hall m (List.mem_cons_self m ms)
      obtain ⟨doc', hdoc'⟩ := ih (dictSet doc m (DefValue.entry ent))
        (fun n hn => hall n (List.mem_cons_of_mem m hn))
      exact ⟨doc', by rw [mergeFold_cons_ok hent]; exact hdoc'⟩

theorem mergeFold_frame {df : Table} :
    ∀ {ns : List PyVal} {doc doc' : Doc}, mergeFold df ns doc = Except.ok doc' →
      ∀ k : PyVal, (∀ n ∈ ns, n ≠ k) → dictGet doc' k = dictGet doc k := by
  intro ns
  induction ns with
  | nil =>
      intro doc doc' h k _
      cases h
      rfl
  | cons m ms ih =>
      intro doc doc' h k hk
      rcases hc : construct_enum_term_yaml_entry df m PyVal.none with e | ent
      · rw [mergeFold_cons_error hc] at h
        cases h
      · rw [mergeFold_cons_ok hc] at h
        have h1 := ih h k (fun n hn => hk n (List.mem_cons_of_mem m hn))
        rw [h1]
        exact dictGet_dictSet_ne doc m k (DefValue.entry ent) (hk m (List.mem_cons_self m ms))

theorem mergeFold_update {df : Table} :
    ∀ {ns : List PyVal} {doc doc' : Doc}, ns.Nodup → mergeFold df ns doc = Except.ok doc' →
      ∀ k ∈ ns, ∃ ent, construct_enum_term_yaml_entry df k PyVal.none = Except.ok ent ∧
        dictGet doc' k = some (DefValue.entry ent) := by
  intro ns
  induction ns with
  | nil =>
      intro doc doc' _ _ k hk
      exact absurd hk (List.not_mem_nil k)
  | cons m ms ih =>
      intro doc doc' hnd h k hk
      have hnd' := List.nodup_cons.mp hnd
      rcases hc : construct_enum_term_yaml_entry df m PyVal.none with e | ent
      · rw [mergeFold_cons_error hc] at h
        cases h
      · rw [mergeFold_cons_ok hc] at h
        rcases List.mem_cons.mp hk with rfl | hm
        · refine ⟨ent, hc, ?_⟩
          have hfr := mergeFold_frame h k (fun n hn heq => hnd'.1 (heq ▸ hn))
          rw [hfr]
          exact dictGet_dictSet_self doc k (DefValue.entry ent) (cety_ok_ne_nan hc)
        · exact ih hnd'.2 h k hm

/-! ### Agreement of the two implementations on self-matching terms -/

theorem upd_build_eq {df : Table} {n t : PyVal}
    (hfne : df.filter (fun r => pyEq r.type_name n) ≠ [])
    (hmatch :
      (df.filter (fun r => pyEq r.type_name n)).filter (fun r => pyEq r.enum t) ≠ []) :
    UpdDefs.build_enumdef df n t = Except.ok (build_enumdef df n t) := by
  rcases hl : (df.filter (fun r => pyEq r.type_name n)).filter (fun r => pyEq r.enum t)
    with - | ⟨r₀, rest⟩
  · exact absurd hl hmatch
  · have ha1 : get_enum_definition df n t = Except.ok r₀.enum_definition := by
      simp only [get_enum_definition, pull_enum_eq_ok hfne, hl]
    have ha2 : get_enum_source df n t = Except.ok r₀.source := by
      simp only [get_enum_source, pull_enum_eq_ok hfne, hl]
    have ha3 : get_enum_term_id df n t = Except.ok r₀.term_id := by
      simp only [get_enum_term_id, pull_enum_eq_ok hfne, hl]
    have hu1 : UpdDefs.get_enum_definition df n t = Except.ok r₀.enum_definition := by
      simp only [UpdDefs.get_enum_definition, UpdDefs.pull_enum, hl]
    have hu2 : UpdDefs.get_enum_source df n t = Except.ok r₀.source := by
      simp only [UpdDefs.get_enum_source, UpdDefs.pull_enum, hl]
    have hu3 : UpdDefs.get_enum_term_id df n t = Except.ok r₀.term_id := by
      simp only [UpdDefs.get_enum_term_id, UpdDefs.pull_enum, hl]
    simp only [UpdDefs.build_enumdef, hu1, hu2, hu3, build_enumdef, ha1, ha2, ha3]

theorem construct_loop_ok {df : Table} {n : PyVal} :
    ∀ ts : List PyVal,
      (∀ t ∈ ts, UpdDefs.build_enumdef df n t = Except.ok (build_enumdef df n t)) →
      UpdDefs.construct_enum_def_loop df n ts = Except.ok (ts.map (build_enumdef df n))
  | [], _ => rfl
  | t :: ts, h => by
      have ht := h t (List.mem_cons_self t ts)
      have hts := construct_loop_ok ts (fun u hu => h u (List.mem_cons_of_mem t hu))
      simp only [UpdDefs.construct_enum_def_loop, ht, hts, List.map_cons]

/-- The optional-field pattern of `build_enumdef`: the key is present with
value `v` exactly when the lookup succeeded with a non-null `v`. -/
theorem optfield_eq (x : Except String PyVal) (v : PyVal) :
    (match x with
     | .ok w => if check_null w then Option.none else Option.some w
     | .error _ => Option.none) = Option.some v ↔
      x = Except.ok v ∧ check_null v = false := by
  rcases x with e | w
  · simp
  · show (if check_null w then Option.none else Option.some w) = Option.some v ↔ _
    by_cases hcn : check_null w = true
    · rw [if_pos hcn]
      constructor
      · intro h
        cases h
      · rintro ⟨hv, hn⟩
        cases hv
        rw [hcn] at hn
        cases hn
    · have hw : check_null w = false := by
        cases h2 : check_null w
        · rfl
        · exact absurd h2 hcn
      rw [if_neg hcn]
      constructor
      · intro h
        cases h
        exact ⟨rfl, hw⟩
      · rintro ⟨hv, -⟩
        cases hv
        rfl

theorem build_enumdef_definition (df : Table) (n t : PyVal) :
    (build_enumdef df n t).definition =
      match get_enum_definition df n t with
      | .ok w => if check_null w then Option.none else Option.some w
      | .error _ => Option.none := rfl

theorem build_enumdef_source (df : Table) (n t : PyVal) :
    (build_enumdef df n t).source =
      match get_enum_source df n t with
      | .ok w => if check_null w then Option.none else Option.some w
      | .error _ => Option.none := rfl

theorem build_enumdef_term_id (df : Table) (n t : PyVal) :
    (build_enumdef df n t).term_id =
      match get_enum_term_id df n t with
      | .ok w => if check_null w then Option.none else Option.some w
      | .error _ => Option.none := rfl

/-! ### Concrete tables and documents for scenarios and witnesses -/

/-- The two-row Color table of the spec scenario. -/
def tblC9 : Table :=
  [⟨PyVal.str "Color", PyVal.str "RED", PyVal.str "red color", PyVal.str "",
      PyVal.str "T1"⟩,
   ⟨PyVal.str "Color", PyVal.str "BLUE", PyVal.none, PyVal.str "src2", PyVal.str ""⟩]

/-- The entry the spec scenario expects for `"Color"`. -/
def entryC9 : EnumTypeEntry :=
  ⟨PyVal.none, [PyVal.str "RED", PyVal.str "BLUE"],
    [⟨PyVal.str "RED", Option.some (PyVal.str "red color"), Option.none,
        Option.some (PyVal.str "T1")⟩,
     ⟨PyVal.str "BLUE", Option.none, Option.some (PyVal.str "src2"), Option.none⟩]⟩

/-- A table whose `"Color"` type has a NaN cell in the `enum` column. -/
def tblNanEnum : Table :=
  [⟨PyVal.str "Color", PyVal.nan, PyVal.str "d", PyVal.str "s", PyVal.str "t"⟩]

/-- A table with a NaN `type_name` cell: its discovered-type list contains
NaN, whose rows can never be pulled back out (NaN matches nothing). -/
def tblNanType : Table :=
  [⟨PyVal.str "X", PyVal.str "A", PyVal.str "defA", PyVal.none, PyVal.none⟩,
   ⟨PyVal.nan, PyVal.str "B", PyVal.none, PyVal.none, PyVal.none⟩]

/-- A table with duplicate `(type_name, enum)` pairs and interleaved types. -/
def tblDup : Table :=
  [⟨PyVal.str "T", PyVal.str "B", PyVal.str "d1", PyVal.none, PyVal.none⟩,
   ⟨PyVal.str "T", PyVal.str "A", PyVal.str "d2", PyVal.none, PyVal.none⟩,
   ⟨PyVal.str "U", PyVal.str "C", PyVal.none, PyVal.none, PyVal.none⟩,
   ⟨PyVal.str "T", PyVal.str "B", PyVal.str "d3", PyVal.str "s3", PyVal.str "i3"⟩]

/-- A definitions document holding one unrelated pre-existing key. -/
def docY : Doc := [(PyVal.str "Y", DefValue.raw (PyVal.str "yval"))]

/-- The document produced by merging `tblC9` into `docY`. -/
def docC9 : Doc :=
  [(PyVal.str "Y", DefValue.raw (PyVal.str "yval")),
   (PyVal.str "Color", DefValue.entry entryC9)]

/-! ### The claims -/

/-- C2: `check_null` returns `true` exactly on the absent marker `None`, a
float NaN, a string whose stripped lowercased form is in the fixed null
vocabulary, or an empty list/tuple/set/dict; every other value — `0`,
`false`, `"0"`, non-empty collections, values of other types — yields
`false`, and the function is total (never raises). -/
theorem check_null_characterization (v : PyVal) :
    check_null v = true ↔
      v = PyVal.none ∨ v = PyVal.nan ∨
      (∃ s, v = PyVal.str s ∧
        pyLower (pyStrip s) ∈ ["", "null", "none", "nan", "n/a", "na",
          "not available", "not applicable", "missing"]) ∨
      v = PyVal.list [] ∨ v = PyVal.tuple [] ∨ v = PyVal.set [] ∨
      v = PyVal.dict [] := by
  cases v <;>
    simp [check_null, null_strs, List.isEmpty_iff, List.elem_iff]

/-- C5: `pull_enum` returns exactly the rows whose `type_name` cell matches
the requested name when at least one row matches, and fails with a
not-found error when no row matches. -/
theorem pull_enum_filter_or_notfound (df : Table) (n : PyVal) :
    ((∃ r ∈ df, pyEq r.type_name n = true) →
      pull_enum df n = Except.ok (df.filter (fun r => pyEq r.type_name n))) ∧
    ((∀ r ∈ df, pyEq r.type_name n = false) →
      ∃ e, pull_enum df n = Except.error e) := by
  constructor
  · rintro ⟨r, hr, hpr⟩
    exact pull_enum_eq_ok (filter_type_ne_nil hr hpr)
  · intro hall
    refine ⟨_, pull_enum_eq_error ?_⟩
    refine List.filter_eq_nil_iff.mpr fun r hr => ?_
    rw [hall r hr]
    simp

/-- C5 witness: on the Color table, the matching name yields the filtered
rows and an absent name yields an error. -/
theorem pull_enum_filter_or_notfound_witness :
    pull_enum tblC9 (PyVal.str "Color") =
      Except.ok (tblC9.filter (fun r => pyEq r.type_name (PyVal.str "Color"))) ∧
    ∃ e, pull_enum tblC9 (PyVal.str "Shape") = Except.error e :=
  ⟨(pull_enum_filter_or_notfound tblC9 (PyVal.str "Color")).1 (by decide),
   (pull_enum_filter_or_notfound tblC9 (PyVal.str "Shape")).2 (by decide)⟩

/-- C7: `get_enum_list` returns the `enum` cell of every matching row, in
row order, duplicates preserved, no sorting. -/
theorem get_enum_list_row_order (df : Table) (n : PyVal)
    (h : ∃ r ∈ df, pyEq r.type_name n = true) :
    get_enum_list df n =
      Except.ok ((df.filter (fun r => pyEq r.type_name n)).map (fun r => r.enum)) := by
  obtain ⟨r, hr, hpr⟩ := h
  exact get_enum_list_eq_ok (filter_type_ne_nil hr hpr)

/-- C7 witness: a table with a duplicate term and an interleaved other type
yields the duplicate-preserving, unsorted, row-ordered term list. -/
theorem get_enum_list_row_order_witness :
    get_enum_list tblDup (PyVal.str "T") =
      Except.ok [PyVal.str "B", PyVal.str "A", PyVal.str "B"] :=
  (get_enum_list_row_order tblDup (PyVal.str "T") (by decide)).trans (by rfl)

/-- C8: the per-field lookups return the requested field of the first row
(in table order) whose `type_name` and `enum` cells both match, so later
duplicate pairs are invisible; when no row matches they fail with a
not-found error. -/
theorem field_lookup_first_match (df : Table) (n t : PyVal) :
    (∀ r : EnumRow,
      df.find? (fun r => pyEq r.type_name n && pyEq r.enum t) = some r →
        get_enum_definition df n t = Except.ok r.enum_definition ∧
        get_enum_source df n t = Except.ok r.source ∧
        get_enum_term_id df n t = Except.ok r.term_id) ∧
    (df.find? (fun r => pyEq r.type_name n && pyEq r.enum t) = none →
      (∃ e, get_enum_definition df n t = Except.error e) ∧
      (∃ e, get_enum_source df n t = Except.error e) ∧
      (∃ e, get_enum_term_id df n t = Except.error e)) :=
  ⟨fun _ h => getters_first_match h, fun h => getters_no_match h⟩

/-- C8 witness: with duplicate `(T, B)` rows only the first row's
definition `d1` is visible, and an absent term errors. -/
theorem field_lookup_first_match_witness :
    get_enum_definition tblDup (PyVal.str "T") (PyVal.str "B") =
      Except.ok (PyVal.str "d1") ∧
    ∃ e, get_enum_definition tblDup (PyVal.str "T") (PyVal.str "Z") =
      Except.error e :=
  ⟨((field_lookup_first_match tblDup (PyVal.str "T") (PyVal.str "B")).1
      ⟨PyVal.str "T", PyVal.str "B", PyVal.str "d1", PyVal.none, PyVal.none⟩
      (by rfl)).1,
   ((field_lookup_first_match tblDup (PyVal.str "T") (PyVal.str "Z")).2 (by rfl)).1⟩

/-- C9: on the two-row Color table of the spec scenario, the constructed
entry is exactly the expected one (empty-string and `None` metadata
suppressed, `enum`/`enumDef` aligned). -/
theorem color_scenario_entry :
    construct_enum_term_yaml_entry tblC9 (PyVal.str "Color") PyVal.none =
      Except.ok entryC9 := by
  rfl

/-- C3: whenever `construct_enum_term_yaml_entry` succeeds (the type has at
least one matching row), `enum` and `enumDef` have equal length and the
`enumeration` field of the i-th record equals the i-th term, duplicates
included. -/
theorem entry_enum_enumDef_aligned (df : Table) (n desc : PyVal) (ent : EnumTypeEntry)
    (h : construct_enum_term_yaml_entry df n desc = Except.ok ent) :
    ent.enumDef.length = ent.enum.length ∧
    ∀ i : ℕ, ∀ hd : i < ent.enumDef.length, ∀ he : i < ent.enum.length,
      (ent.enumDef.get ⟨i, hd⟩).enumeration = ent.enum.get ⟨i, he⟩ := by
  have hf := cety_ok_filter_ne h
  rw [cety_eq_ok hf] at h
  cases h
  refine ⟨by simp, ?_⟩
  intro i hd he
  simp [List.get_eq_getElem, List.getElem_map, build_enumdef]

/-- C3 witness: alignment holds on the Color scenario entry. -/
theorem entry_enum_enumDef_aligned_witness :
    entryC9.enumDef.length = entryC9.enum.length ∧
    ∀ i : ℕ, ∀ hd : i < entryC9.enumDef.length, ∀ he : i < entryC9.enum.length,
      (entryC9.enumDef.get ⟨i, hd⟩).enumeration = entryC9.enum.get ⟨i, he⟩ :=
  entry_enum_enumDef_aligned tblC9 (PyVal.str "Color") PyVal.none entryC9 (by rfl)

/-- C4: for a term of the type's term list, the record built by
`construct_enum_def`'s loop body carries each optional key exactly when the
corresponding field lookup succeeds with a non-null-classified value; a
failed lookup or null-classified value omits the key, and
`construct_enum_def` itself returns the records without error. -/
theorem term_record_key_presence (df : Table) (n t : PyVal) (terms : List PyVal)
    (hlist : get_enum_list df n = Except.ok terms) (_ht : t ∈ terms) :
    construct_enum_def df n = Except.ok (terms.map (build_enumdef df n)) ∧
    (∀ v, (build_enumdef df n t).definition = Option.some v ↔
      get_enum_definition df n t = Except.ok v ∧ check_null v = false) ∧
    (∀ v, (build_enumdef df n t).source = Option.some v ↔
      get_enum_source df n t = Except.ok v ∧ check_null v = false) ∧
    (∀ v, (build_enumdef df n t).term_id = Option.some v ↔
      get_enum_term_id df n t = Except.ok v ∧ check_null v = false) := by
  refine ⟨by simp only [construct_enum_def, hlist], ?_, ?_, ?_⟩
  · intro v
    rw [build_enumdef_definition, optfield_eq]
  · intro v
    rw [build_enumdef_source, optfield_eq]
  · intro v
    rw [build_enumdef_term_id, optfield_eq]

/-- C4 witness: key-presence conditions checked for the `RED` term of the
Color table. -/
theorem term_record_key_presence_witness :
    construct_enum_def tblC9 (PyVal.str "Color") =
      Except.ok ([PyVal.str "RED", PyVal.str "BLUE"].map
        (build_enumdef tblC9 (PyVal.str "Color"))) ∧
    (∀ v, (build_enumdef tblC9 (PyVal.str "Color") (PyVal.str "RED")).definition =
        Option.some v ↔
      get_enum_definition tblC9 (PyVal.str "Color") (PyVal.str "RED") = Except.ok v ∧
        check_null v = false) ∧
    (∀ v, (build_enumdef tblC9 (PyVal.str "Color") (PyVal.str "RED")).source =
        Option.some v ↔
      get_enum_source tblC9 (PyVal.str "Color") (PyVal.str "RED") = Except.ok v ∧
        check_null v = false) ∧
    (∀ v, (build_enumdef tblC9 (PyVal.str "Color") (PyVal.str "RED")).term_id =
        Option.some v ↔
      get_enum_term_id tblC9 (PyVal.str "Color") (PyVal.str "RED") = Except.ok v ∧
        check_null v = false) :=
  term_record_key_presence tblC9 (PyVal.str "Color") (PyVal.str "RED")
    [PyVal.str "RED", PyVal.str "BLUE"] (by rfl) (by decide)

/-- C1: when the merge loop of `process_enums` completes, every key with no
row of that `type_name` in the table keeps its exact previous value
(present or absent), and every `type_name` occurring in the table maps to
its freshly built entry, overwriting any prior value. -/
theorem merge_frame_and_update (df : Table) (doc doc' : Doc)
    (h : (process_enums df doc).1 = Except.ok doc') :
    (∀ k : PyVal, (∀ r ∈ df, r.type_name ≠ k) → dictGet doc' k = dictGet doc k) ∧
    (∀ k : PyVal, (∃ r ∈ df, r.type_name = k) →
      ∃ ent, construct_enum_term_yaml_entry df k PyVal.none = Except.ok ent ∧
        dictGet doc' k = some (DefValue.entry ent)) := by
  rcases hm : mergeFold df (enum_types df) doc with e | d
  · rw [process_enums, hm] at h
    cases h
  · rw [process_enums, hm] at h
    cases h
    constructor
    · intro k hk
      refine mergeFold_frame hm k fun n hn heq => ?_
      obtain ⟨r, hr, hrn⟩ := List.mem_map.mp (mem_uniqueList.mp hn)
      exact hk r hr (by rw [hrn, heq])
    · intro k hk
      obtain ⟨r, hr, hrk⟩ := hk
      refine mergeFold_update (nodup_uniqueList _) hm k ?_
      exact mem_uniqueList.mpr (List.mem_map.mpr ⟨r, hr, hrk⟩)

/-- C1 witness: merging the Color table into a document with unrelated key
`Y` leaves `Y` untouched and sets `Color` to the built entry. -/
theorem merge_frame_and_update_witness :
    (∀ k : PyVal, (∀ r ∈ tblC9, r.type_name ≠ k) → dictGet docC9 k = dictGet docY k) ∧
    (∀ k : PyVal, (∃ r ∈ tblC9, r.type_name = k) →
      ∃ ent, construct_enum_term_yaml_entry tblC9 k PyVal.none = Except.ok ent ∧
        dictGet docC9 k = some (DefValue.entry ent)) :=
  merge_frame_and_update tblC9 docY docC9 (by rfl)

/-- C6: `process_enums` persists exactly once, and only when every
discovered type's entry was built successfully; a hard build error
propagates (it is the error of some discovered type) and nothing is
written. -/
theorem process_enums_persistence (df : Table) (doc : Doc) :
    (∀ e, (process_enums df doc).1 = Except.error e →
      (process_enums df doc).2 = [] ∧
      ∃ n ∈ enum_types df,
        construct_enum_term_yaml_entry df n PyVal.none = Except.error e) ∧
    (∀ d, (process_enums df doc).1 = Except.ok d →
      (process_enums df doc).2 = [d] ∧
      ∀ n ∈ enum_types df, ∃ ent,
        construct_enum_term_yaml_entry df n PyVal.none = Except.ok ent) := by
  rcases hm : mergeFold df (enum_types df) doc with e | d
  · constructor
    · intro e' he'
      rw [process_enums, hm] at he' ⊢
      cases he'
      exact ⟨rfl, mergeFold_error_mem hm⟩
    · intro d hd
      rw [process_enums, hm] at hd
      cases hd
  · constructor
    · intro e' he'
      rw [process_enums, hm] at he'
      cases he'
    · intro d' hd'
      rw [process_enums, hm] at hd' ⊢
      cases hd'
      exact ⟨rfl, mergeFold_ok_all hm⟩

/-- C6 witness: a NaN `type_name` makes its own rows unfindable, so the run
aborts with the propagated not-found error and writes nothing. -/
theorem process_enums_persistence_witness :
    (process_enums tblNanType docY).2 = [] ∧
    ∃ n ∈ enum_types tblNanType,
      construct_enum_term_yaml_entry tblNanType n PyVal.none =
        Except.error "Enum not found in dataframe" :=
  (process_enums_persistence tblNanType docY).1 "Enum not found in dataframe" (by rfl)

/-- C10 counterexample: on a table whose `Color` type has a NaN `enum`
cell (one matching row, so within the claim's scope), the
`add_enum_to_def` builder succeeds — the NaN term matches no row, the
lookup error is swallowed and the optional keys are omitted — while the
`update_definitions_with_enums` builder propagates the lookup error, so
the two results differ. -/
theorem builders_disagree_on_nan_term :
    construct_enum_term_yaml_entry tblNanEnum (PyVal.str "Color") PyVal.none =
      Except.ok ⟨PyVal.none, [PyVal.nan],
        [⟨PyVal.nan, Option.none, Option.none, Option.none⟩]⟩ ∧
    UpdDefs.construct_enum_term_yaml_entry tblNanEnum (PyVal.str "Color") PyVal.none =
      Except.error "single positional indexer is out-of-bounds" ∧
    construct_enum_term_yaml_entry tblNanEnum (PyVal.str "Color") PyVal.none ≠
      UpdDefs.construct_enum_term_yaml_entry tblNanEnum (PyVal.str "Color") PyVal.none := by
  refine ⟨rfl, rfl, ?_⟩
  decide

/-- C10 (amended): for a type with at least one matching row, provided
every matching row's `enum` cell matches itself under the dataframe
equality (no NaN enum cells), the two implementations return identical
entries. -/
theorem builders_agree_of_self_matching (df : Table) (n desc : PyVal)
    (hne : ∃ r ∈ df, pyEq r.type_name n = true)
    (hself : ∀ r ∈ df, pyEq r.type_name n = true → pyEq r.enum r.enum = true) :
    UpdDefs.construct_enum_term_yaml_entry df n desc =
      construct_enum_term_yaml_entry df n desc := by
  obtain ⟨r, hr, hpr⟩ := hne
  have hfne := filter_type_ne_nil hr hpr
  have hterms : ∀ t ∈ (df.filter (fun r => pyEq r.type_name n)).map (fun r => r.enum),
      UpdDefs.build_enumdef df n t = Except.ok (build_enumdef df n t) := by
    intro t ht
    obtain ⟨r', hr'mem, hr'enum⟩ := List.mem_map.mp ht
    have hr'df := (List.mem_filter.mp hr'mem).1
    have hr'p := (List.mem_filter.mp hr'mem).2
    have hselfr : pyEq r'.enum t = true := by
      rw [← hr'enum]
      exact hself r' hr'df hr'p
    refine upd_build_eq hfne fun hnil => ?_
    have hmem :
        r' ∈ (df.filter (fun r => pyEq r.type_name n)).filter
          (fun r => pyEq r.enum t) :=
      List.mem_filter.mpr ⟨hr'mem, hselfr⟩
    rw [hnil] at hmem
    exact absurd hmem (List.not_mem_nil r')
  have hloop := construct_loop_ok _ hterms
  rw [cety_eq_ok hfne]
  have hul : UpdDefs.get_enum_list df n =
      (df.filter (fun r => pyEq r.type_name n)).map (fun r => r.enum) := rfl
  simp only [UpdDefs.construct_enum_term_yaml_entry, UpdDefs.construct_enum_def,
    hul, hloop]

/-- C10 amended witness: the two implementations agree on the Color
scenario table, whose enum cells are all strings. -/
theorem builders_agree_of_self_matching_witness :
    UpdDefs.construct_enum_term_yaml_entry tblC9 (PyVal.str "Color") PyVal.none =
      construct_enum_term_yaml_entry tblC9 (PyVal.str "Color") PyVal.none :=
  builders_agree_of_self_matching tblC9 (PyVal.str "Color") PyVal.none
    (by decide) (by decide)

end ACDC
